import Mathlib

set_option maxRecDepth 100000

/-!
Verification development for the AMX coprocessor layer of the spectral
repository (src/arch/amx). The Rust source is shallowly embedded: machine
integers are Nat with explicit reduction modulo 2 ^ 64 where the Rust code
wraps, debug assertions become explicit rejection branches, and instruction
emission is recorded in an explicit log so that properties about which
instructions reach the hardware can be stated and checked.
-/

namespace Spectral

/-- The u64 modulus. -/
def U64 : Nat := 2 ^ 64

/-- Reduction modulo 2 ^ 64, the wrapping of Rust u64 and usize arithmetic. -/
def wrap (x : Nat) : Nat := x % U64

/-- The low-56-bit pointer mask 0x00FF_FFFF_FFFF_FFFF from fmt_offset_ptr. -/
def M56 : Nat := 0x00FFFFFFFFFFFFFF

/-- One emitted AMX instruction: the 5-bit opcode passed to emit_op and the
64-bit operand word (bus.rs, emit_op). -/
structure Instr where
  op : Nat
  operand : Nat
deriving DecidableEq, Repr

/-- Extraction of the bit field of width bits starting at bit lo of a word.
This is the decoder the claims specify (bits 61..56 hold the register
offset, bits 63..62 the size tag); it is not itself in the source. -/
def getField (w lo width : Nat) : Nat := (w >>> lo) &&& (2 ^ width - 1)

/-- Decoder for the register-offset field, bits 61..56 of an operand word. -/
def decode_offset (w : Nat) : Nat := getField w 56 6

/-- Decoder for the transfer-size tag field, bits 63..62 of an operand word. -/
def decode_size_tag (w : Nat) : Nat := getField w 62 2

/-- Decoder for the low-56-bit address field of an operand word. -/
def decode_addr (w : Nat) : Nat := w &&& M56

/-- Embedding of fmt_offset (bus.rs lines 167-171): debug_assert that the
offset is below 64, then (offset << 56) | (SIZE << 62) in u64 arithmetic.
The assertion failure is modelled as an error. -/
def fmt_offset (SIZE offset : Nat) : Except String Nat :=
  if offset < 64 then
    .ok (wrap (offset <<< 56) ||| wrap (SIZE <<< 62))
  else
    .error "offset < 64"

/-- Embedding of fmt_offset_ptr (bus.rs lines 175-179): debug_assert that
the offset is below 64, then (offset << 56) | (SIZE << 62) | (ptr & M56). -/
def fmt_offset_ptr (SIZE offset ptr : Nat) : Except String Nat :=
  if offset < 64 then
    .ok (wrap (offset <<< 56) ||| wrap (SIZE <<< 62) ||| (ptr &&& M56))
  else
    .error "offset < 64"

/-- Embedding of the MemSize enum (load_store.rs lines 9-14): the two
transfer-size tags, 64 bytes encoded as 0 and 128 bytes encoded as 1. -/
inductive MemSize
| s64
| s128
deriving DecidableEq, Repr

/-- Numeric value of a MemSize tag, the (size as u64) cast of the source. -/
def MemSize.toU64 : MemSize → Nat
| .s64 => 0
| .s128 => 1

/-- Embedding of MemArgs.encode (load_store.rs lines 16-23): debug_assert
that the offset is below 64, then (offset << 56) | ((size as u64) << 62). -/
def MemArgs.encode (offset : Nat) (size : MemSize) : Except String Nat :=
  if offset < 64 then
    .ok (wrap (offset <<< 56) ||| wrap (size.toU64 <<< 62))
  else
    .error "offset < 64"

/-- Embedding of the RegSet enum (regs.rs / ops.rs): the three register
banks X (8 rows), Y (8 rows) and Z (64 rows), each row being 64 bytes. -/
inductive RegSet
| X
| Y
| Z
deriving DecidableEq, Repr

/-- Total byte size of a bank: 512 for X and Y, 4096 for Z. -/
def bankSize : RegSet → Nat
| .X => 512
| .Y => 512
| .Z => 4096

/-- Row count of a bank: 8 for X and Y, 64 for Z. -/
def bankRows : RegSet → Nat
| .X => 8
| .Y => 8
| .Z => 64

/-- Software model of the register file: the byte contents of the three
banks, each bank one flat byte list (row i occupies bytes 64 i .. 64 i + 63). -/
structure Regs where
  x : List Nat
  y : List Nat
  z : List Nat
deriving DecidableEq, Repr

/-- Contents of one bank of the register file. -/
def Regs.get : Regs → RegSet → List Nat
| r, .X => r.x
| r, .Y => r.y
| r, .Z => r.z

/-- Replace the contents of one bank of the register file. -/
def Regs.write : Regs → RegSet → List Nat → Regs
| r, .X, b => { r with x := b }
| r, .Y, b => { r with y := b }
| r, .Z, b => { r with z := b }

/-- The register file with every byte zero. -/
def zeroRegs : Regs :=
  ⟨List.replicate 512 0, List.replicate 512 0, List.replicate 4096 0⟩

/-- Read n bytes of a byte-addressed memory starting at addr (bytes outside
the memory read as 0). Models the 64-byte transfer a load opcode performs
from a raw pointer. -/
def readBytes (mem : List Nat) (addr : Nat) : Nat → List Nat
| 0 => []
| n + 1 => mem.getD addr 0 :: readBytes mem (addr + 1) n

/-- Overwrite the bytes of dst starting at position off with src, leaving
the rest unchanged and never growing dst. -/
def writeBytes : List Nat → Nat → List Nat → List Nat
| [], _, _ => []
| d :: ds, Nat.succ off, src => d :: writeBytes ds off src
| _ :: ds, 0, s :: ss => s :: writeBytes ds 0 ss
| d :: ds, 0, [] => d :: ds

/-- Result of running an instruction-emitting operation: either success with
the emitted instruction log and a value, or a panic (failed assertion)
carrying the instructions already emitted before the panic. -/
inductive EmitResult (ι α : Type)
| ok (log : List ι) (val : α)
| fail (log : List ι) (msg : String)
deriving DecidableEq

/-- The instruction log of a result, whether it succeeded or panicked. -/
def EmitResult.log : EmitResult ι α → List ι
| .ok l _ => l
| .fail l _ => l

/-- The value of a successful result. -/
def EmitResult.value : EmitResult ι α → Option α
| .ok _ v => some v
| .fail _ _ => none

/-- Whether the operation succeeded. -/
def EmitResult.isOk : EmitResult ι α → Bool
| .ok _ _ => true
| .fail _ _ => false

/-- The opcode numbers of the emitted instructions. -/
def EmitResult.opcodes (r : EmitResult Instr α) : List Nat :=
  r.log.map Instr.op

/-- The load opcode a bank selects in set_vector (bus.rs lines 11-15):
X 0, Y 1, Z 4. -/
def loadOp : RegSet → Nat
| .X => 0
| .Y => 1
| .Z => 4

/-- The store opcode a bank selects in get_vector (bus.rs lines 43-47):
X 2, Y 3, Z 5. -/
def storeOp : RegSet → Nat
| .X => 2
| .Y => 3
| .Z => 5

/-- Embedding of set_vector (bus.rs lines 10-19): pick the load opcode for
the bank, encode the operand with fmt_offset_ptr at SIZE 64, and emit one
instruction. ptr is the raw source address as a number. -/
def set_vector (set : RegSet) (reg ptr : Nat) : EmitResult Instr Unit :=
  match fmt_offset_ptr 64 reg ptr with
  | .ok operand => .ok [⟨loadOp set, operand⟩] ()
  | .error e => .fail [] e

/-- Hardware semantics of set_vector on the software register model: the
emitted load copies 64 bytes of mem starting at ptr into row reg of the
bank (bytes 64 reg .. 64 reg + 63 of the bank contents). -/
def set_vector_sem (regs : Regs) (mem : List Nat) (set : RegSet) (reg ptr : Nat) :
    EmitResult Instr Regs :=
  match set_vector set reg ptr with
  | .ok ins _ =>
      .ok ins (regs.write set (writeBytes (regs.get set) (64 * reg) (readBytes mem ptr 64)))
  | .fail l m => .fail l m

/-- Row loop of set_matrix: for each row index i call set_vector with the
pointer data.as_ptr() + i * 8, i.e. the slice data[i * 8 .. (i + 1) * 8]
taken by the source (bus.rs line 34). Addresses are offsets into data. -/
def set_matrix_fold (set : RegSet) (data : List Nat) :
    List Nat → Regs → List Instr → EmitResult Instr Regs
| [], regs, log => .ok log regs
| i :: rest, regs, log =>
    match set_vector_sem regs data set i (i * 8) with
    | .ok ins regs2 => set_matrix_fold set data rest regs2 (log ++ ins)
    | .fail l m => .fail (log ++ l) m

/-- Embedding of set_matrix (bus.rs lines 23-35): debug_assert the exact
buffer length (512 for X and Y, 4096 for Z) before the loop, then write the
rows by repeated set_vector calls with the 8-byte slice stride of the
source. -/
def set_matrix : Regs → RegSet → List Nat → EmitResult Instr Regs
| regs, .X, data =>
    if data.length = 512 then set_matrix_fold .X data (List.range 8) regs []
    else .fail [] "data must be 512 bytes"
| regs, .Y, data =>
    if data.length = 512 then set_matrix_fold .Y data (List.range 8) regs []
    else .fail [] "data must be 512 bytes"
| regs, .Z, data =>
    if data.length = 4096 then set_matrix_fold .Z data (List.range 64) regs []
    else .fail [] "data must be 4096 bytes"

/-- Embedding of get_vector (bus.rs lines 38-54): encode the operand for the
fresh 64-byte buffer (its address modelled as 0), pick the store opcode for
the bank (X 2, Y 3, Z 5), emit it, and return the bytes the store wrote,
namely row reg of the bank. -/
def get_vector (regs : Regs) (set : RegSet) (reg : Nat) : EmitResult Instr (List Nat) :=
  match fmt_offset_ptr 64 reg 0 with
  | .ok operand =>
      .ok [⟨storeOp set, operand⟩] (readBytes (regs.get set) (64 * reg) 64)
  | .error e => .fail [] e

/-- Row loop shared by get_matrix_512 and get_matrix_4096. The source
computes the destination as ptr.offset((reg * 64) as isize) where ptr
points at the WHOLE buffer array (pointee type [u8; 512] or [u8; 4096]),
and Rust scales offset by the pointee size, so the store for row reg lands
reg * 64 * elemSize bytes past the buffer base, not reg * 64: for every
reg above 0 it falls outside the buffer. The 64 row bytes are written at
that byte address; writeBytes drops writes past the buffer end, modelling
that they never reach the returned buffer (in the real program they
clobber unrelated memory, undefined behaviour). The emitted operand
carries the same scaled address. -/
def get_matrix_fold (bank : List Nat) (op elemSize : Nat) :
    List Nat → List Nat → List Instr → EmitResult Instr (List Nat)
| [], buf, log => .ok log buf
| reg :: rest, buf, log =>
    match fmt_offset_ptr 64 reg (reg * 64 * elemSize) with
    | .ok operand =>
        get_matrix_fold bank op elemSize rest
          (writeBytes buf (reg * 64 * elemSize) (readBytes bank (reg * 64) 64))
          (log ++ [⟨op, operand⟩])
    | .error e => .fail log e

/-- Embedding of get_matrix_512 (bus.rs lines 58-81 and the identical
ops.rs copy), with the initial contents of the 512-byte destination buffer
(created uninitialised via MaybeUninit and read back by assume_init) made
an explicit uninit parameter. For X and Y, loop the store opcode (2 or 3)
over the 8 rows with pointer stride scaled by the pointee size 512. For Z,
when the debug crate feature is on (the dbg parameter) panic; otherwise
return a fresh all-zero 512-byte buffer without emitting anything (the
literal return of the source, independent of uninit). -/
def get_matrix_512_uninit (uninit : List Nat) (dbg : Bool) :
    Regs → RegSet → EmitResult Instr (List Nat)
| regs, .X => get_matrix_fold regs.x 2 512 (List.range 8) uninit []
| regs, .Y => get_matrix_fold regs.y 3 512 (List.range 8) uninit []
| _, .Z =>
    if dbg then .fail [] "passed invalid regset z to get_matrix_512"
    else .ok [] (List.replicate 512 0)

/-- get_matrix_512 with the uninitialised buffer contents instantiated to
zeros. The Z branch, the only one the C8 theorems touch, never reads the
buffer, so that instantiation is irrelevant there. -/
def get_matrix_512 (dbg : Bool) (regs : Regs) (set : RegSet) : EmitResult Instr (List Nat) :=
  get_matrix_512_uninit (List.replicate 512 0) dbg regs set

/-- Embedding of get_matrix_4096 (bus.rs lines 84-97): loop opcode 5 over
the 64 rows of Z with pointer stride scaled by the pointee size 4096 (the
same ptr.offset defect as get_matrix_512), into a buffer whose
uninitialised initial contents are the uninit parameter. -/
def get_matrix_4096 (uninit : List Nat) (regs : Regs) : EmitResult Instr (List Nat) :=
  get_matrix_fold regs.z 5 4096 (List.range 64) uninit []

/-- Instructions emitted by matrix_mul_f16 (bus.rs line 106): opcode 21. -/
def matrix_mul_f16 : List Instr := [⟨21, 0⟩]

/-- Instructions emitted by matrix_mul_i16 (bus.rs line 113): opcode 20. -/
def matrix_mul_i16 : List Instr := [⟨20, 0⟩]

/-- Instructions emitted by matrix_mul_add_f16 (bus.rs line 120): opcode 15. -/
def matrix_mul_add_f16 : List Instr := [⟨15, 0⟩]

/-- Instructions emitted by matrix_mul_add_i16 (bus.rs line 127): opcode 14. -/
def matrix_mul_add_i16 : List Instr := [⟨14, 0⟩]

/-- Instructions emitted by the enable operation set (bus.rs line 134):
opcode 17 with operand 0. -/
def bus.set : List Instr := [⟨17, 0⟩]

/-- Instructions emitted by the disable operation clr (bus.rs line 139):
opcode 17 with operand 1. -/
def bus.clr : List Instr := [⟨17, 1⟩]

/-- Calls made through the AmxOps trait (mod.rs lines 227-255): each
load/store mnemonic carries its encoded operand word and the raw pointer,
each compute mnemonic carries its operand word. -/
inductive Call
| ldx (operand ptr : Nat)
| ldy (operand ptr : Nat)
| ldz (operand ptr : Nat)
| stx (operand ptr : Nat)
| sty (operand ptr : Nat)
| stz (operand ptr : Nat)
| ldzi (operand ptr : Nat)
| stzi (operand ptr : Nat)
| mac16 (operand : Nat)
deriving DecidableEq, Repr

/-- Embedding of the LoadStore impl for XRow, method load512 (load_store.rs
lines 47-58): debug_assert that the index is below 8, encode the operand
with MemArgs at size 64, and call ldx. -/
def XRow.load512 (index ptr : Nat) : EmitResult Call Unit :=
  if index < 8 then
    match MemArgs.encode index .s64 with
    | .ok w => .ok [.ldx w ptr] ()
    | .error e => .fail [] e
  else .fail [] "index < 8"

/-- Embedding of the LoadStore impl for YRow, method load512 (load_store.rs
lines 103-114): debug_assert that the index is below 8, encode, call ldy. -/
def YRow.load512 (index ptr : Nat) : EmitResult Call Unit :=
  if index < 8 then
    match MemArgs.encode index .s64 with
    | .ok w => .ok [.ldy w ptr] ()
    | .error e => .fail [] e
  else .fail [] "index < 8"

/-- Embedding of the LoadStore impl for ZRow, method load512 (load_store.rs
lines 157-168): debug_assert that the index is below 64, encode, call ldz. -/
def ZRow.load512 (index ptr : Nat) : EmitResult Call Unit :=
  if index < 64 then
    match MemArgs.encode index .s64 with
    | .ok w => .ok [.ldz w ptr] ()
    | .error e => .fail [] e
  else .fail [] "index < 64"

/-- Embedding of Amx::outer_product_i16_xy_to_z (mod.rs lines 186-207):
debug_assert the two optional byte offsets below 0x200 and the z row index
below 64, then pack y | (x << 10) | (z << 20) | ((not accumulate) << 27) |
(x missing << 28) | (y missing << 29) and call mac16. Option offsets default
to 0 as in unwrap_or_default. -/
def outer_product_i16_xy_to_z (x y : Option Nat) (z : Nat) (accumulate : Bool) :
    EmitResult Call Unit :=
  if x.getD 0 < 0x200 then
    if y.getD 0 < 0x200 then
      if z < 64 then
        .ok [.mac16 (wrap (y.getD 0
          ||| wrap (x.getD 0 <<< 10)
          ||| wrap (z <<< 20)
          ||| wrap ((if accumulate then 0 else 1) <<< 27)
          ||| wrap ((if x.isNone then 1 else 0) <<< 28)
          ||| wrap ((if y.isNone then 1 else 0) <<< 29)))] ()
      else .fail [] "z_index < 64"
    else .fail [] "y_offset_bytes < 0x200"
  else .fail [] "x_offset_bytes < 0x200"

/-- Embedding of the AmxErr enum (mod.rs lines 26-31 and init.rs lines
85-90): Exists when the thread has already initialised AMX, Unsupported
when the build target cannot run AMX. -/
inductive AmxErr
| Exists
| Unsupported
deriving DecidableEq, Repr

deriving instance DecidableEq for Except

/-- Outcome of an enable attempt: the returned Result, the value of the
thread-local enabled flag after the call, and the instructions emitted. -/
structure EnableOutcome where
  result : Except AmxErr Unit
  flagAfter : Bool
  emitted : List Instr
deriving DecidableEq

/-- Embedding of AmxHandle::enable (mod.rs lines 37-65). targetOk is the
compile-time cfg check (aarch64 and macos and 64-bit pointers), asimd the
runtime feature detection, flag the thread-local AMX_ENABLED cell. The
source checks the target, then the feature, then the flag; on the success
path it runs ops::set() and returns Ok WITHOUT setting AMX_ENABLED to true,
which this embedding reproduces faithfully. -/
def AmxHandle.enable (targetOk asimd flag : Bool) : EnableOutcome :=
  if !targetOk then ⟨.error .Unsupported, flag, []⟩
  else if !asimd then ⟨.error .Unsupported, flag, []⟩
  else if flag then ⟨.error .Exists, flag, []⟩
  else ⟨.ok (), flag, [⟨17, 0⟩]⟩

/-- Embedding of AmxHandle::disable (mod.rs lines 70-74): emit clr, then
clear the thread-local flag. -/
def AmxHandle.disable (_flag : Bool) : Bool × List Instr := (false, [⟨17, 1⟩])

/-- Embedding of AmxCtx::new (init.rs lines 16-54). The source checks the
thread-local CTX_ACTIVE flag FIRST and only then the target cfg and the
asimd feature; on the success path it runs ops::set() and returns Ok
WITHOUT setting CTX_ACTIVE to true, which this embedding reproduces
faithfully. -/
def AmxCtx.new (targetOk asimd flag : Bool) : EnableOutcome :=
  if flag then ⟨.error .Exists, flag, []⟩
  else if targetOk then
    if asimd then ⟨.ok (), flag, [⟨17, 0⟩]⟩
    else ⟨.error .Unsupported, flag, []⟩
  else ⟨.error .Unsupported, flag, []⟩

/-- The software-facing opcode enumeration of the specification, section 6,
in the listed order. -/
inductive SpecOp
| loadSmallBank0
| loadSmallBank1
| storeSmallBank0
| storeSmallBank1
| loadLargeBank
| storeLargeBank
| loadLargeBankInterleaved
| storeLargeBankInterleaved
| extract0
| extract1
| fma64
| fms64
| fma32
| fms32
| mac16
| fma16
| fms16
| enable
| disable
| vecInt
| vecFp
| matInt
| matFp
| genLut
deriving DecidableEq, BEq, Repr

/-- The enumeration of the specification opcode table in order. -/
def specEnumeration : List SpecOp :=
  [.loadSmallBank0, .loadSmallBank1, .storeSmallBank0, .storeSmallBank1,
   .loadLargeBank, .storeLargeBank, .loadLargeBankInterleaved,
   .storeLargeBankInterleaved, .extract0, .extract1, .fma64, .fms64,
   .fma32, .fms32, .mac16, .fma16, .fms16, .enable, .disable, .vecInt,
   .vecFp, .matInt, .matFp, .genLut]

/-- Position of an operation in the specification opcode enumeration. -/
def specPos (o : SpecOp) : Nat := specEnumeration.indexOf o

/-- Round trip of claim C2: write a whole bank with set_matrix into the
all-zero register file, then immediately read it back with get_matrix_512
(debug feature on; it is irrelevant for the X and Y paths). uninit is the
unconstrained initial contents of the read-back buffer. -/
def roundTrip512 (uninit : List Nat) (set : RegSet) (data : List Nat) :
    EmitResult Instr (List Nat) :=
  match set_matrix zeroRegs set data with
  | .ok log regs =>
      match get_matrix_512_uninit uninit true regs set with
      | .ok log2 buf => .ok (log ++ log2) buf
      | .fail l m => .fail (log ++ l) m
  | .fail l m => .fail l m

/-- The 512-byte test buffer of claim C2: byte j holds j mod 256. -/
def c2Data : List Nat := (List.range 512).map (fun j => j % 256)

/-! Bit-level helper lemmas used to settle the encoding claims. -/

theorem lor_shiftRight (x y n : Nat) : (x ||| y) >>> n = (x >>> n) ||| (y >>> n) := by
  apply Nat.eq_of_testBit_eq
  intro i
  simp [Nat.testBit_shiftRight]

theorem lor_land (x y m : Nat) : (x ||| y) &&& m = (x &&& m) ||| (y &&& m) := by
  apply Nat.eq_of_testBit_eq
  intro i
  simp only [Nat.testBit_lor, Nat.testBit_land]
  cases x.testBit i <;> cases y.testBit i <;> cases m.testBit i <;> rfl

theorem getField_lor (x y lo w : Nat) :
    getField (x ||| y) lo w = getField x lo w ||| getField y lo w := by
  unfold getField
  rw [lor_shiftRight, lor_land]

theorem getField_shl_self (a lo w : Nat) (h : a < 2 ^ w) : getField (a <<< lo) lo w = a := by
  unfold getField
  rw [Nat.shiftLeft_eq, Nat.shiftRight_eq_div_pow, Nat.mul_div_cancel _ (Nat.two_pow_pos lo),
    Nat.and_pow_two_sub_one_eq_mod, Nat.mod_eq_of_lt h]

theorem getField_high (a lo w k : Nat) (hk : lo + w ≤ k) : getField (a <<< k) lo w = 0 := by
  unfold getField
  rw [Nat.shiftLeft_eq, Nat.shiftRight_eq_div_pow, Nat.and_pow_two_sub_one_eq_mod]
  have h1 : a * 2 ^ k = a * 2 ^ (k - lo - w) * 2 ^ w * 2 ^ lo := by
    rw [Nat.mul_assoc, Nat.mul_assoc, ← pow_add, ← pow_add]
    congr 2
    omega
  rw [h1, Nat.mul_div_cancel _ (Nat.two_pow_pos lo), Nat.mul_mod_left]

theorem getField_low (a lo w : Nat) (h : a < 2 ^ lo) : getField a lo w = 0 := by
  unfold getField
  rw [Nat.shiftRight_eq_div_pow, Nat.div_eq_of_lt h]
  simp

theorem lor_lt {x y n : Nat} (hx : x < 2 ^ n) (hy : y < 2 ^ n) : x ||| y < 2 ^ n :=
  Nat.bitwise_lt hx hy

theorem wrap_eq {x : Nat} (h : x < 2 ^ 64) : wrap x = x := by
  unfold wrap U64
  exact Nat.mod_eq_of_lt h

theorem shl_lt_u64 {a : Nat} (n k : Nat) (ha : a < 2 ^ n) (hnk : n + k ≤ 64) :
    a <<< k < 2 ^ 64 :=
  lt_of_lt_of_le (Nat.shiftLeft_lt ha) (Nat.pow_le_pow_right (by norm_num) hnk)

theorem mask_mod (p : Nat) : p &&& M56 = p % 2 ^ 56 := by
  have h : M56 = 2 ^ 56 - 1 := by decide
  rw [h, Nat.and_pow_two_sub_one_eq_mod]

theorem mask_lt (p : Nat) : p &&& M56 < 2 ^ 56 := by
  rw [mask_mod]
  exact Nat.mod_lt _ (by norm_num)

/-- The buffer the round trip actually returns on the C2 test data when
the uninitialised read-back buffer starts as zeros: only the row-0 store
lands inside the buffer (bytes 0..63, which by the write-side stride bug
hold data[0..64]); the stores for rows 1..7 land reg * 64 * 512 bytes past
the base, outside the buffer, leaving bytes 64..511 at their
uninitialised value. -/
def c2ReadBack : List Nat := (List.range 512).map (fun j => if j < 64 then j else 0)

/-! Claim theorems. -/

/-- C1: the claim says a second enable() in the same thread without an
intervening release() returns the Exists (AlreadyEnabled) error. The code
never sets the thread-local enabled flag to true on the success path of
either AmxHandle::enable or AmxCtx::new, so on a supported target a second
enable() succeeds again instead of returning Exists: the code contradicts
its own documented single-handle invariant. This theorem evaluates both
entry points at the failing input. -/
theorem c1_enable_twice_code_bug :
    (AmxHandle.enable true true false).result = .ok ()
  ∧ (AmxHandle.enable true true false).flagAfter = false
  ∧ (AmxHandle.enable true true (AmxHandle.enable true true false).flagAfter).result = .ok ()
  ∧ (AmxHandle.enable true true (AmxHandle.enable true true false).flagAfter).result
      ≠ Except.error AmxErr.Exists
  ∧ (AmxCtx.new true true false).result = .ok ()
  ∧ (AmxCtx.new true true (AmxCtx.new true true false).flagAfter).result = .ok () := by
  decide

set_option maxRecDepth 100000 in
/-- C2: the claim says set_matrix copies the 64-byte block at
data[64 i .. 64 (i + 1)] into row i, so an immediate get_matrix_512
round-trips byte-identically. Two defects break this, each contradicting
the adjacent source comments. First, set_matrix slices
data[8 i .. 8 (i + 1)] (an 8-byte stride), so row i of the bank receives
data[8 i .. 8 i + 64]: proven below on row 1, which holds data[8..72]
instead of data[64..128]. Second, get_matrix_512 computes the destination
as ptr.offset((reg * 64) as isize) on a pointer to the whole 512-byte
array, which advances reg * 64 * 512 bytes (the emitted store addresses
are 0, 32768, ..., 229376), so rows 1..7 are stored outside the buffer and
the returned bytes 64..511 keep the buffer's uninitialised contents: with
the buffer initially zeroed the read-back byte 64 is 0, with it initially
filled with 7 it is 7, while the written byte 64 is 64. -/
theorem c2_roundtrip_code_bug :
    (roundTrip512 (List.replicate 512 0) RegSet.X c2Data).value = some c2ReadBack
  ∧ c2ReadBack ≠ c2Data
  ∧ c2ReadBack.getD 64 1000 = 0
  ∧ c2Data.getD 64 1000 = 64
  ∧ (roundTrip512 (List.replicate 512 7) RegSet.X c2Data).value.map (fun l => l.getD 64 1000)
      = some 7
  ∧ (match set_matrix zeroRegs RegSet.X c2Data with
     | .ok _ regs => List.take 8 (List.drop 64 regs.x)
     | .fail _ _ => []) = List.take 8 (List.drop 8 c2Data)
  ∧ (roundTrip512 (List.replicate 512 0) RegSet.X c2Data).opcodes
      = [0, 0, 0, 0, 0, 0, 0, 0, 2, 2, 2, 2, 2, 2, 2, 2]
  ∧ ((roundTrip512 (List.replicate 512 0) RegSet.X c2Data).log.drop 8).map
      (fun i => decode_addr i.operand)
      = [0, 32768, 65536, 98304, 131072, 163840, 196608, 229376] := by
  decide

/-- C3: for every register offset below 64 and every 2-bit size-tag value,
the encoders produce exactly (offset << 56) | (size_tag << 62), possibly
OR-ed with the low 56 bits of the address, and decoding bits 61..56 and
63..62 of the word recovers the offset and the size tag exactly. The size
tags actually used through MemArgs.encode are 0 and 1, both covered. -/
theorem c3_encode_decode_roundtrip (offset tag ptr : Nat) (ho : offset < 64) (ht : tag < 4) :
    fmt_offset tag offset = .ok ((offset <<< 56) ||| (tag <<< 62))
  ∧ fmt_offset_ptr tag offset ptr = .ok ((offset <<< 56) ||| (tag <<< 62) ||| (ptr &&& M56))
  ∧ (∀ sz : MemSize, MemArgs.encode offset sz = .ok ((offset <<< 56) ||| (sz.toU64 <<< 62)))
  ∧ decode_offset ((offset <<< 56) ||| (tag <<< 62)) = offset
  ∧ decode_size_tag ((offset <<< 56) ||| (tag <<< 62)) = tag
  ∧ decode_offset ((offset <<< 56) ||| (tag <<< 62) ||| (ptr &&& M56)) = offset
  ∧ decode_size_tag ((offset <<< 56) ||| (tag <<< 62) ||| (ptr &&& M56)) = tag := by
  have ho6 : offset < 2 ^ 6 := (show (64 : Nat) = 2 ^ 6 by norm_num) ▸ ho
  have ht2 : tag < 2 ^ 2 := (show (4 : Nat) = 2 ^ 2 by norm_num) ▸ ht
  have hA : wrap (offset <<< 56) = offset <<< 56 := wrap_eq (shl_lt_u64 6 56 ho6 (by norm_num))
  have hB : wrap (tag <<< 62) = tag <<< 62 := wrap_eq (shl_lt_u64 2 62 ht2 (by norm_num))
  have hoffLow62 : offset <<< 56 < 2 ^ 62 := by
    have := Nat.shiftLeft_lt ho6 (m := 56)
    simpa using this
  have hmaskLow56 : ptr &&& M56 < 2 ^ 56 := mask_lt ptr
  have hmaskLow62 : ptr &&& M56 < 2 ^ 62 := lt_trans hmaskLow56 (by norm_num)
  refine ⟨?_, ?_, ?_, ?_, ?_, ?_, ?_⟩
  · unfold fmt_offset
    rw [if_pos ho, hA, hB]
  · unfold fmt_offset_ptr
    rw [if_pos ho, hA, hB]
  · intro sz
    have hsz : sz.toU64 < 2 ^ 2 := by cases sz <;> decide
    have hBs : wrap (sz.toU64 <<< 62) = sz.toU64 <<< 62 :=
      wrap_eq (shl_lt_u64 2 62 hsz (by norm_num))
    unfold MemArgs.encode
    rw [if_pos ho, hA, hBs]
  · unfold decode_offset
    rw [getField_lor, getField_shl_self _ _ _ ho6, getField_high _ _ _ _ (by norm_num)]
    simp
  · unfold decode_size_tag
    rw [getField_lor, getField_low _ _ _ hoffLow62, getField_shl_self _ _ _ ht2]
    simp
  · unfold decode_offset
    rw [getField_lor, getField_lor, getField_shl_self _ _ _ ho6,
      getField_high _ _ _ _ (by norm_num), getField_low _ _ _ hmaskLow56]
    simp
  · unfold decode_size_tag
    rw [getField_lor, getField_lor, getField_low _ _ _ hoffLow62,
      getField_shl_self _ _ _ ht2, getField_low _ _ _ hmaskLow62]
    simp

/-- Witness for C3 at offset 9, tag 1 and a concrete 64-bit address. -/
theorem c3_encode_decode_roundtrip_witness :
    decode_offset ((9 <<< 56) ||| (1 <<< 62) ||| (0xFEDCBA9876543210 &&& M56)) = 9
  ∧ decode_size_tag ((9 <<< 56) ||| (1 <<< 62) ||| (0xFEDCBA9876543210 &&& M56)) = 1 :=
  ⟨(c3_encode_decode_roundtrip 9 1 0xFEDCBA9876543210 (by decide) (by decide)).2.2.2.2.2.1,
   (c3_encode_decode_roundtrip 9 1 0xFEDCBA9876543210 (by decide) (by decide)).2.2.2.2.2.2⟩

/-- C4 counterexample: set_vector takes a raw register number and only the
encoder assertion (offset < 64) guards it, so the X-bank out-of-bounds
offset 8 is not rejected: an instruction is emitted whose operand word
carries offset 8, refuting the claim that an out-of-bounds offset can
never reach the encoded instruction word. -/
theorem c4_raw_offset_reaches_word_counterexample :
    set_vector RegSet.X 8 0 = .ok [⟨0, 0x0800000000000000⟩] ()
  ∧ decode_offset 0x0800000000000000 = 8 := by
  decide

/-- C4 amended: the typed row path (XRow, YRow, ZRow load512) asserts the
owning bank bound (8 for X and Y, 64 for Z) before any instruction is
emitted and succeeds inside the bound, and the encoder rejects any offset
at or above 64; but the raw set_vector path accepts any offset below 64
for every bank, so only offsets at or above 64 are stopped there and an
X or Y offset in 8..63 does reach the encoded word. -/
theorem c4_amended_bound_checks :
    (∀ idx ptr : Nat, idx < 8 →
      ∃ w, MemArgs.encode idx MemSize.s64 = .ok w ∧ XRow.load512 idx ptr = .ok [.ldx w ptr] ())
  ∧ (∀ idx ptr : Nat, 8 ≤ idx → XRow.load512 idx ptr = .fail [] "index < 8")
  ∧ (∀ idx ptr : Nat, idx < 8 →
      ∃ w, MemArgs.encode idx MemSize.s64 = .ok w ∧ YRow.load512 idx ptr = .ok [.ldy w ptr] ())
  ∧ (∀ idx ptr : Nat, 8 ≤ idx → YRow.load512 idx ptr = .fail [] "index < 8")
  ∧ (∀ idx ptr : Nat, idx < 64 →
      ∃ w, MemArgs.encode idx MemSize.s64 = .ok w ∧ ZRow.load512 idx ptr = .ok [.ldz w ptr] ())
  ∧ (∀ idx ptr : Nat, 64 ≤ idx → ZRow.load512 idx ptr = .fail [] "index < 64")
  ∧ (∀ set : RegSet, ∀ reg ptr : Nat, reg < 64 → (set_vector set reg ptr).isOk = true)
  ∧ (∀ set : RegSet, ∀ reg ptr : Nat, 64 ≤ reg → set_vector set reg ptr = .fail [] "offset < 64") := by
  refine ⟨?_, ?_, ?_, ?_, ?_, ?_, ?_, ?_⟩
  · intro idx ptr h
    refine ⟨wrap (idx <<< 56) ||| wrap (MemSize.s64.toU64 <<< 62), ?_, ?_⟩
    · unfold MemArgs.encode
      rw [if_pos (by omega)]
    · unfold XRow.load512 MemArgs.encode
      rw [if_pos h, if_pos (by omega)]
  · intro idx ptr h
    unfold XRow.load512
    rw [if_neg (by omega)]
  · intro idx ptr h
    refine ⟨wrap (idx <<< 56) ||| wrap (MemSize.s64.toU64 <<< 62), ?_, ?_⟩
    · unfold MemArgs.encode
      rw [if_pos (by omega)]
    · unfold YRow.load512 MemArgs.encode
      rw [if_pos h, if_pos (by omega)]
  · intro idx ptr h
    unfold YRow.load512
    rw [if_neg (by omega)]
  · intro idx ptr h
    refine ⟨wrap (idx <<< 56) ||| wrap (MemSize.s64.toU64 <<< 62), ?_, ?_⟩
    · unfold MemArgs.encode
      rw [if_pos (by omega)]
    · unfold ZRow.load512 MemArgs.encode
      rw [if_pos h, if_pos (by omega)]
  · intro idx ptr h
    unfold ZRow.load512
    rw [if_neg (by omega)]
  · intro set reg ptr h
    unfold set_vector fmt_offset_ptr
    rw [if_pos h]
    rfl
  · intro set reg ptr h
    unfold set_vector fmt_offset_ptr
    rw [if_neg (by omega)]

/-- Witness for C4 amended: the typed X row rejects index 9 before any
emission, and the raw path accepts register 8 on bank Y. -/
theorem c4_amended_bound_checks_witness :
    XRow.load512 9 0 = .fail [] "index < 8"
  ∧ (set_vector RegSet.Y 8 0).isOk = true :=
  ⟨c4_amended_bound_checks.2.1 9 0 (by decide),
   c4_amended_bound_checks.2.2.2.2.2.2.1 RegSet.Y 8 0 (by decide)⟩

/-- C5 counterexample: the disable operation clr emits opcode 17 with
operand 1, the same opcode as enable distinguished only by the operand,
not the distinct opcode 18 that the position of disable in the
specification enumeration demands. -/
theorem c5_disable_opcode_counterexample :
    bus.clr = [⟨17, 1⟩]
  ∧ specPos SpecOp.disable = 18
  ∧ bus.clr.map Instr.op ≠ [specPos SpecOp.disable] := by
  decide

/-- C5 amended: single-row loads into X, Y, Z emit opcodes 0, 1, 4 and
stores emit 2, 3, 5, matching their positions in the enumeration; the
accumulating multiplies emit 14 (mac16) and 15 (fma16), also matching;
enable emits opcode 17 with operand 0; but disable emits opcode 17 with
operand 1 (not a distinct opcode 18), and the plain matrix multiplies emit
20 (int16) and 21 (float16), one less than the positions of mat-int (21)
and mat-fp (22) in the specification enumeration. -/
theorem c5_amended_opcode_numbers :
    (∀ reg ptr : Nat, reg < 64 →
        (set_vector RegSet.X reg ptr).opcodes = [specPos SpecOp.loadSmallBank0]
      ∧ (set_vector RegSet.Y reg ptr).opcodes = [specPos SpecOp.loadSmallBank1]
      ∧ (set_vector RegSet.Z reg ptr).opcodes = [specPos SpecOp.loadLargeBank])
  ∧ (∀ regs : Regs, ∀ reg : Nat, reg < 64 →
        (get_vector regs RegSet.X reg).opcodes = [specPos SpecOp.storeSmallBank0]
      ∧ (get_vector regs RegSet.Y reg).opcodes = [specPos SpecOp.storeSmallBank1]
      ∧ (get_vector regs RegSet.Z reg).opcodes = [specPos SpecOp.storeLargeBank])
  ∧ bus.set = [⟨specPos SpecOp.enable, 0⟩]
  ∧ bus.clr = [⟨17, 1⟩]
  ∧ specPos SpecOp.enable = 17
  ∧ specPos SpecOp.disable = 18
  ∧ matrix_mul_add_i16.map Instr.op = [specPos SpecOp.mac16]
  ∧ matrix_mul_add_f16.map Instr.op = [specPos SpecOp.fma16]
  ∧ matrix_mul_i16.map Instr.op = [20]
  ∧ specPos SpecOp.matInt = 21
  ∧ matrix_mul_f16.map Instr.op = [21]
  ∧ specPos SpecOp.matFp = 22 := by
  refine ⟨?_, ?_, by decide, by decide, by decide, by decide, by decide, by decide,
    by decide, by decide, by decide, by decide⟩
  · intro reg ptr h
    refine ⟨?_, ?_, ?_⟩ <;>
      · unfold set_vector fmt_offset_ptr
        rw [if_pos h]
        rfl
  · intro regs reg h
    refine ⟨?_, ?_, ?_⟩ <;>
      · unfold get_vector fmt_offset_ptr
        rw [if_pos h]
        rfl

/-- Witness for C5 amended at register 0. -/
theorem c5_amended_opcode_numbers_witness :
    (set_vector RegSet.X 0 0).opcodes = [specPos SpecOp.loadSmallBank0]
  ∧ (get_vector zeroRegs RegSet.Z 0).opcodes = [specPos SpecOp.storeLargeBank] :=
  ⟨(c5_amended_opcode_numbers.1 0 0 (by decide)).1,
   (c5_amended_opcode_numbers.2.1 zeroRegs 0 (by decide)).2.2⟩

/-- C6 counterexample: AmxCtx::new checks the thread-local live flag
before the platform check, so on an unsupported target whose flag is set
it returns Exists (AlreadyEnabled) rather than Unsupported, refuting the
claimed check order for that entry point. -/
theorem c6_ctx_check_order_counterexample :
    (AmxCtx.new false false true).result = Except.error AmxErr.Exists
  ∧ (AmxCtx.new false false true).result ≠ Except.error AmxErr.Unsupported := by
  decide

/-- C6 amended: AmxHandle::enable does check platform support first and
returns Unsupported on an unsupported target even when the flag is set,
but AmxCtx::new checks the live flag first and returns Exists whenever the
flag is set, including on unsupported targets. On a supported target with
the flag set, AmxHandle::enable returns Exists. -/
theorem c6_amended_check_order :
    (∀ asimd flag : Bool, (AmxHandle.enable false asimd flag).result = .error .Unsupported)
  ∧ (∀ flag : Bool, (AmxHandle.enable true false flag).result = .error .Unsupported)
  ∧ (AmxHandle.enable true true true).result = .error .Exists
  ∧ (∀ targetOk asimd : Bool, (AmxCtx.new targetOk asimd true).result = .error .Exists) := by
  refine ⟨?_, ?_, by decide, ?_⟩
  · intro asimd flag
    cases asimd <;> cases flag <;> decide
  · intro flag
    cases flag <;> decide
  · intro targetOk asimd
    cases targetOk <;> cases asimd <;> decide

/-- C7: set_matrix asserts the exact bank byte size (512 for X and Y, 4096
for Z) before its row loop, so a buffer of any other length is rejected
with no per-row instruction emitted and no row written. -/
theorem c7_length_mismatch_rejected (regs : Regs) (set : RegSet) (data : List Nat)
    (h : data.length ≠ bankSize set) :
    (set_matrix regs set data).isOk = false ∧ (set_matrix regs set data).log = [] := by
  cases set <;>
    · simp only [set_matrix]
      rw [if_neg (by simpa [bankSize] using h)]
      exact ⟨rfl, rfl⟩

/-- Witness for C7: a 500-byte buffer on the X bank is rejected with an
empty instruction log. -/
theorem c7_length_mismatch_rejected_witness :
    (set_matrix zeroRegs RegSet.X (List.replicate 500 0)).isOk = false
  ∧ (set_matrix zeroRegs RegSet.X (List.replicate 500 0)).log = [] :=
  c7_length_mismatch_rejected zeroRegs RegSet.X (List.replicate 500 0) (by decide)

/-- C8 counterexample: with the debug crate feature off, get_matrix_512 on
the Z bank does not panic: it silently succeeds and returns a fabricated
all-zero 512-byte buffer (the literal return of the source), emitting no
instruction, refuting the claim that this misuse always aborts. -/
theorem c8_nondebug_fabricated_counterexample :
    get_matrix_512 false zeroRegs RegSet.Z = .ok [] (List.replicate 512 0)
  ∧ (get_matrix_512 false zeroRegs RegSet.Z).isOk = true := by
  decide

/-- C8 amended: calling get_matrix_512 on the Z bank panics before any
instruction is emitted only when the debug crate feature is on; with the
feature off it silently returns a fabricated all-zero 512-byte buffer,
also emitting no instruction. -/
theorem c8_amended_z_branch :
    (∀ regs : Regs, get_matrix_512 true regs RegSet.Z
        = .fail [] "passed invalid regset z to get_matrix_512")
  ∧ (∀ regs : Regs, get_matrix_512 false regs RegSet.Z = .ok [] (List.replicate 512 0)) :=
  ⟨fun _ => rfl, fun _ => rfl⟩

/-- C9 counterexample: outer_product_i16_xy_to_z does not mask a too-large
z row index down to a valid one: the value 64 is rejected by the assertion
(z_index < 64), so the call fails instead of behaving like the masked
index 0 would. -/
theorem c9_masking_counterexample :
    outer_product_i16_xy_to_z (none : Option Nat) (none : Option Nat) 64 false
      = .fail [] "z_index < 64"
  ∧ outer_product_i16_xy_to_z (none : Option Nat) (none : Option Nat) 64 false
      ≠ .ok [.mac16 ((64 % 64) <<< 20 ||| 1 <<< 27 ||| 1 <<< 28 ||| 1 <<< 29)] () := by
  decide

/-- C9 amended: the z row index is checked by an assertion (z below 64)
rather than masked; any value at or above 64 is rejected before the mac16
call, and any value below 64 is packed into operand bits 25..20, where it
cannot overlap the accumulate and operand-exclusion flags at bits 27, 28
and 29, which decode back exactly. -/
theorem c9_amended_assert_not_mask :
    (∀ x y : Option Nat, ∀ z : Nat, ∀ acc : Bool,
      x.getD 0 < 0x200 → y.getD 0 < 0x200 → 64 ≤ z →
      outer_product_i16_xy_to_z x y z acc = .fail [] "z_index < 64")
  ∧ (∀ x y : Option Nat, ∀ z : Nat, ∀ acc : Bool,
      x.getD 0 < 0x200 → y.getD 0 < 0x200 → z < 64 →
      ∃ w, outer_product_i16_xy_to_z x y z acc = .ok [.mac16 w] ()
        ∧ getField w 20 6 = z
        ∧ getField w 27 1 = (if acc then 0 else 1)
        ∧ getField w 28 1 = (if x.isNone then 1 else 0)
        ∧ getField w 29 1 = (if y.isNone then 1 else 0)) := by
  constructor
  · intro x y z acc hx hy hz
    unfold outer_product_i16_xy_to_z
    rw [if_pos hx, if_pos hy, if_neg (by omega)]
  · intro x y z acc hx hy hz
    have hx9 : x.getD 0 < 2 ^ 9 := (show (0x200 : Nat) = 2 ^ 9 by norm_num) ▸ hx
    have hy9 : y.getD 0 < 2 ^ 9 := (show (0x200 : Nat) = 2 ^ 9 by norm_num) ▸ hy
    have hz6 : z < 2 ^ 6 := (show (64 : Nat) = 2 ^ 6 by norm_num) ▸ hz
    have hna : (if acc then 0 else 1) < 2 ^ 1 := by cases acc <;> simp
    have hxb : (if x.isNone then 1 else 0) < 2 ^ 1 := by cases x <;> simp
    have hyb : (if y.isNone then 1 else 0) < 2 ^ 1 := by cases y <;> simp
    have w10 : wrap (x.getD 0 <<< 10) = x.getD 0 <<< 10 :=
      wrap_eq (shl_lt_u64 9 10 hx9 (by norm_num))
    have w20 : wrap (z <<< 20) = z <<< 20 := wrap_eq (shl_lt_u64 6 20 hz6 (by norm_num))
    have w27 : wrap ((if acc then 0 else 1) <<< 27) = (if acc then 0 else 1) <<< 27 :=
      wrap_eq (shl_lt_u64 1 27 hna (by norm_num))
    have w28 : wrap ((if x.isNone then 1 else 0) <<< 28) = (if x.isNone then 1 else 0) <<< 28 :=
      wrap_eq (shl_lt_u64 1 28 hxb (by norm_num))
    have w29 : wrap ((if y.isNone then 1 else 0) <<< 29) = (if y.isNone then 1 else 0) <<< 29 :=
      wrap_eq (shl_lt_u64 1 29 hyb (by norm_num))
    have b1 : y.getD 0 < 2 ^ 30 := lt_trans hy9 (by norm_num)
    have b2 : x.getD 0 <<< 10 < 2 ^ 30 :=
      lt_of_lt_of_le (Nat.shiftLeft_lt hx9) (by norm_num)
    have b3 : z <<< 20 < 2 ^ 30 := lt_of_lt_of_le (Nat.shiftLeft_lt hz6) (by norm_num)
    have b4 : (if acc then 0 else 1) <<< 27 < 2 ^ 30 :=
      lt_of_lt_of_le (Nat.shiftLeft_lt hna) (by norm_num)
    have b5 : (if x.isNone then 1 else 0) <<< 28 < 2 ^ 30 :=
      lt_of_lt_of_le (Nat.shiftLeft_lt hxb) (by norm_num)
    have b6 : (if y.isNone then 1 else 0) <<< 29 < 2 ^ 30 :=
      lt_of_lt_of_le (Nat.shiftLeft_lt hyb) (by norm_num)
    have ball :
        y.getD 0 ||| x.getD 0 <<< 10 ||| z <<< 20 ||| (if acc then 0 else 1) <<< 27
          ||| (if x.isNone then 1 else 0) <<< 28 ||| (if y.isNone then 1 else 0) <<< 29
        < 2 ^ 30 :=
      lor_lt (lor_lt (lor_lt (lor_lt (lor_lt b1 b2) b3) b4) b5) b6
    have wall := wrap_eq (lt_trans ball (by norm_num))
    refine ⟨y.getD 0 ||| x.getD 0 <<< 10 ||| z <<< 20 ||| (if acc then 0 else 1) <<< 27
      ||| (if x.isNone then 1 else 0) <<< 28 ||| (if y.isNone then 1 else 0) <<< 29,
      ?_, ?_, ?_, ?_, ?_⟩
    · unfold outer_product_i16_xy_to_z
      rw [if_pos hx, if_pos hy, if_pos hz, w10, w20, w27, w28, w29, wall]
    · simp only [getField_lor]
      rw [getField_low _ _ _ (lt_trans hy9 (by norm_num)),
        getField_low _ _ _ (lt_of_lt_of_le (Nat.shiftLeft_lt hx9) (by norm_num)),
        getField_shl_self _ _ _ hz6,
        getField_high _ _ _ _ (by norm_num),
        getField_high _ _ _ _ (by norm_num),
        getField_high _ _ _ _ (by norm_num)]
      simp
    · simp only [getField_lor]
      rw [getField_low _ _ _ (lt_trans hy9 (by norm_num)),
        getField_low _ _ _ (lt_of_lt_of_le (Nat.shiftLeft_lt hx9) (by norm_num)),
        getField_low _ _ _ (lt_of_lt_of_le (Nat.shiftLeft_lt hz6) (by norm_num)),
        getField_shl_self _ _ _ hna,
        getField_high _ _ _ _ (by norm_num),
        getField_high _ _ _ _ (by norm_num)]
      simp
    · simp only [getField_lor]
      rw [getField_low _ _ _ (lt_trans hy9 (by norm_num)),
        getField_low _ _ _ (lt_of_lt_of_le (Nat.shiftLeft_lt hx9) (by norm_num)),
        getField_low _ _ _ (lt_of_lt_of_le (Nat.shiftLeft_lt hz6) (by norm_num)),
        getField_low _ _ _ (lt_of_lt_of_le (Nat.shiftLeft_lt hna) (by norm_num)),
        getField_shl_self _ _ _ hxb,
        getField_high _ _ _ _ (by norm_num)]
      simp
    · simp only [getField_lor]
      rw [getField_low _ _ _ (lt_trans hy9 (by norm_num)),
        getField_low _ _ _ (lt_of_lt_of_le (Nat.shiftLeft_lt hx9) (by norm_num)),
        getField_low _ _ _ (lt_of_lt_of_le (Nat.shiftLeft_lt hz6) (by norm_num)),
        getField_low _ _ _ (lt_of_lt_of_le (Nat.shiftLeft_lt hna) (by norm_num)),
        getField_low _ _ _ (lt_of_lt_of_le (Nat.shiftLeft_lt hxb) (by norm_num)),
        getField_shl_self _ _ _ hyb]
      simp

/-- Witness for C9 amended: index 70 is rejected, and index 7 with offsets
5 and 3, no accumulation, packs and decodes all four fields. -/
theorem c9_amended_assert_not_mask_witness :
    outer_product_i16_xy_to_z (some 5) (some 3) 70 true = .fail [] "z_index < 64"
  ∧ ∃ w, outer_product_i16_xy_to_z (some 5) (some 3) 7 false = .ok [.mac16 w] ()
      ∧ getField w 20 6 = 7
      ∧ getField w 27 1 = (if (false : Bool) then 0 else 1)
      ∧ getField w 28 1 = (if (some 5 : Option Nat).isNone then 1 else 0)
      ∧ getField w 29 1 = (if (some 3 : Option Nat).isNone then 1 else 0) :=
  ⟨c9_amended_assert_not_mask.1 (some 5) (some 3) 70 true (by decide) (by decide) (by decide),
   c9_amended_assert_not_mask.2 (some 5) (some 3) 7 false (by decide) (by decide) (by decide)⟩

/-- C10: set_vector and get_vector instantiate the SIZE parameter of
fmt_offset_ptr with the byte count 64 rather than a size-tag value;
64 << 62 is congruent to 0 modulo 2 ^ 64, so the size-tag field (bits
63..62) of every operand word produced on this path is 0, the 64-byte
tag, for every register offset and pointer. -/
theorem c10_size_tag_always_zero :
    wrap (64 <<< 62) = 0
  ∧ (∀ set : RegSet, ∀ reg ptr : Nat, reg < 64 →
      set_vector set reg ptr
        = .ok [⟨loadOp set, wrap (reg <<< 56) ||| wrap (64 <<< 62) ||| (ptr &&& M56)⟩] ()
      ∧ decode_size_tag (wrap (reg <<< 56) ||| wrap (64 <<< 62) ||| (ptr &&& M56)) = 0)
  ∧ (∀ regs : Regs, ∀ set : RegSet, ∀ reg : Nat, reg < 64 →
      get_vector regs set reg
        = .ok [⟨storeOp set, wrap (reg <<< 56) ||| wrap (64 <<< 62) ||| (0 &&& M56)⟩]
            (readBytes (regs.get set) (64 * reg) 64)
      ∧ decode_size_tag (wrap (reg <<< 56) ||| wrap (64 <<< 62) ||| (0 &&& M56)) = 0) := by
  have hz : wrap (64 <<< 62) = 0 := by decide
  refine ⟨hz, ?_, ?_⟩
  · intro set reg ptr h
    have h6 : reg < 2 ^ 6 := (show (64 : Nat) = 2 ^ 6 by norm_num) ▸ h
    have hw : wrap (reg <<< 56) = reg <<< 56 := wrap_eq (shl_lt_u64 6 56 h6 (by norm_num))
    constructor
    · unfold set_vector fmt_offset_ptr
      rw [if_pos h]
    · rw [hz, hw]
      unfold decode_size_tag
      rw [getField_lor, getField_lor,
        getField_low _ _ _ (lt_of_lt_of_le (Nat.shiftLeft_lt h6) (by norm_num)),
        getField_low _ _ _ (by norm_num : (0 : Nat) < 2 ^ 62),
        getField_low _ _ _ (lt_trans (mask_lt ptr) (by norm_num))]
      simp
  · intro regs set reg h
    have h6 : reg < 2 ^ 6 := (show (64 : Nat) = 2 ^ 6 by norm_num) ▸ h
    have hw : wrap (reg <<< 56) = reg <<< 56 := wrap_eq (shl_lt_u64 6 56 h6 (by norm_num))
    constructor
    · unfold get_vector fmt_offset_ptr
      rw [if_pos h]
    · rw [hz, hw]
      unfold decode_size_tag
      rw [getField_lor, getField_lor,
        getField_low _ _ _ (lt_of_lt_of_le (Nat.shiftLeft_lt h6) (by norm_num)),
        getField_low _ _ _ (by norm_num : (0 : Nat) < 2 ^ 62),
        getField_low _ _ _ (lt_trans (mask_lt 0) (by norm_num))]
      simp

/-- Witness for C10 at bank X, register 3 and a concrete address. -/
theorem c10_size_tag_always_zero_witness :
    set_vector RegSet.X 3 0x123456789ABCDEF0
      = .ok [⟨loadOp RegSet.X,
          wrap (3 <<< 56) ||| wrap (64 <<< 62) ||| (0x123456789ABCDEF0 &&& M56)⟩] ()
  ∧ decode_size_tag (wrap (3 <<< 56) ||| wrap (64 <<< 62) ||| (0x123456789ABCDEF0 &&& M56)) = 0 :=
  c10_size_tag_always_zero.2.1 RegSet.X 3 0x123456789ABCDEF0 (by decide)

end Spectral
